import Mathlib

/-!
Verification development for the zardy ASCII-sprite library.

Shallow embedding of `src/zardy/lib/ascii/align.py`,
`src/zardy/lib/ascii/sprites.py` and `src/zardy/lib/ascii/borders/border.py`.

Python strings are modelled as `List Char` (`Str`).  Operations that can raise
in Python (`max([])` raises `ValueError` inside `Sprite.dim`) return `Option`;
`none` models a raised exception propagating out of the operation.
`str.splitlines` is modelled for the newline character `'\n'`, the only line
break occurring in this library (all strings handled by the geometry core are
built with `NEWLINE.join`).
-/

namespace Zardy

/-- Python strings, modelled as lists of characters. -/
abbrev Str := List Char

/-- Embeds `ascii.SPACE`. -/
def SPACE : Str := [' ']

/-- Embeds `ascii.BLANK` (the empty string). -/
def BLANK : Str := []

/-- Python `s * n` for a string `s` and a non-negative count `n`. -/
def pyRepeat (s : Str) : Nat → Str
  | 0 => []
  | n + 1 => s ++ pyRepeat s n

/-- Python `"\n".join(lines)`. -/
def pyJoin : List Str → Str
  | [] => []
  | [l] => l
  | l :: l2 :: ls => l ++ '\n' :: pyJoin (l2 :: ls)

/-- Helper for `splitlines`: accumulates the current (reversed) line.  At the
end of the string an unfinished non-empty line is emitted, matching Python,
where a trailing newline does not produce a final empty line. -/
def splitlinesAux : Str → Str → List Str
  | [], acc => if acc = [] then [] else [acc.reverse]
  | c :: rest, acc =>
      if c = '\n' then acc.reverse :: splitlinesAux rest []
      else splitlinesAux rest (c :: acc)

/-- Python `s.splitlines()` (for `'\n'` line breaks). -/
def splitlines (s : Str) : List Str := splitlinesAux s []

/-- Python `max(list_of_ints)`: `none` models the `ValueError` raised on an
empty sequence. -/
def pyMaxNat : List Nat → Option Nat
  | [] => none
  | [x] => some x
  | x :: y :: rest => (pyMaxNat (y :: rest)).map (fun m => max x m)

/-- Python list indexing `l[i]` with negative-index support; `none` models
`IndexError`. -/
def pyListGet {α : Type} (l : List α) (i : Int) : Option α :=
  if 0 ≤ i then l.get? i.toNat
  else if 0 ≤ (l.length : Int) + i then l.get? ((l.length : Int) + i).toNat
  else none

/-- Embeds `align.Alignment`: the closed 9-way alignment enumeration. -/
inductive Alignment : Type
  | TOPLEFT | LEFT | BOTTOMLEFT
  | TOPRIGHT | RIGHT | BOTTOMRIGHT
  | TOP | CENTER | BOTTOM
deriving DecidableEq

/-- Embeds `Alignment.left`: `self in [TOPLEFT, LEFT, BOTTOMLEFT]`. -/
def Alignment.left : Alignment → Bool
  | .TOPLEFT | .LEFT | .BOTTOMLEFT => true
  | _ => false

/-- Embeds `Alignment.center`: `self in [TOP, CENTER, BOTTOM]`. -/
def Alignment.center : Alignment → Bool
  | .TOP | .CENTER | .BOTTOM => true
  | _ => false

/-- Embeds `Alignment.right`: `self in [TOPRIGHT, RIGHT, BOTTOMRIGHT]`. -/
def Alignment.right : Alignment → Bool
  | .TOPRIGHT | .RIGHT | .BOTTOMRIGHT => true
  | _ => false

/-- Embeds `Alignment.top`: `self in [TOPLEFT, TOP, TOPRIGHT]`. -/
def Alignment.top : Alignment → Bool
  | .TOPLEFT | .TOP | .TOPRIGHT => true
  | _ => false

/-- Embeds `Alignment.middle`: `self in [LEFT, CENTER, RIGHT]`. -/
def Alignment.middle : Alignment → Bool
  | .LEFT | .CENTER | .RIGHT => true
  | _ => false

/-- Embeds `Alignment.bottom`: `self in [BOTTOMLEFT, BOTTOM, BOTTOMRIGHT]`. -/
def Alignment.bottom : Alignment → Bool
  | .BOTTOMLEFT | .BOTTOM | .BOTTOMRIGHT => true
  | _ => false

/-- Embeds `sprites.Sprite`: immutable dataclass.  Field `ascii` is the private
`__ascii` text; the remaining fields are the formatting options (Python
defaults: `padding=SPACE`, `align=Alignment.LEFT`, `min_width=0`,
`min_height=0`). -/
structure Sprite : Type where
  ascii : Str
  padding : Str
  align : Alignment
  min_width : Nat
  min_height : Nat
deriving DecidableEq

/-- Embeds `Sprite.margins(dim, min_dim, alignment, vertical)` (static method). -/
def Sprite.margins (dim min_dim : Nat) (alignment : Alignment) (vertical : Bool) :
    Nat × Nat :=
  if min_dim ≤ dim then (0, 0)
  else
    let front := if vertical then alignment.top else alignment.left
    let back := if vertical then alignment.bottom else alignment.right
    if front then (0, min_dim - dim)
    else if back then (min_dim - dim, 0)
    else ((min_dim - dim) / 2, (min_dim - dim) / 2 + (min_dim - dim) % 2)

/-- Embeds `Sprite.dim`: `max` of the line widths (raising on an empty text, hence
`Option`), widened to `min_width`; line count widened to `min_height`. -/
def Sprite.dim (s : Sprite) : Option (Nat × Nat) :=
  let lines := splitlines s.ascii
  match pyMaxNat (lines.map List.length) with
  | none => none
  | some w0 => some (max w0 s.min_width, max lines.length s.min_height)

/-- The row list built by the body of `Sprite.textbox` for a box of
`bw × bh`: every line padded horizontally per `margins`, then—when the line
count is below `bh`—full-width padding rows added above and below per the
vertical `margins`. -/
def Sprite.renderRows (s : Sprite) (bw bh : Nat) : List Str :=
  let padded := (splitlines s.ascii).map (fun line =>
    pyRepeat s.padding (Sprite.margins line.length bw s.align false).1 ++ line ++
      pyRepeat s.padding (Sprite.margins line.length bw s.align false).2)
  if bh ≤ padded.length then padded
  else
    let pad := pyRepeat s.padding bw
    List.replicate (Sprite.margins padded.length bh s.align true).1 pad ++ padded ++
      List.replicate (Sprite.margins padded.length bh s.align true).2 pad

/-- Embeds `Sprite.textbox`: the aligned and padded rendering, `NEWLINE`-joined. -/
def Sprite.textbox (s : Sprite) : Option Str :=
  match s.dim with
  | none => none
  | some (x, y) =>
      some (pyJoin (s.renderRows (max x s.min_width) (max y s.min_height)))

/-- Embeds `Sprite.rows`: `textbox.splitlines()`. -/
def Sprite.rows (s : Sprite) : Option (List Str) := s.textbox.map splitlines

/-- Embeds `Sprite.blank_row`: `padding * dim.width`. -/
def Sprite.blank_row (s : Sprite) : Option Str :=
  s.dim.map (fun d => pyRepeat s.padding d.1)

/-- Embeds `Sprite.row(index)`: the indexed row of `rows`, falling back to
`blank_row` on `IndexError`.  Exceptions raised while computing `rows` itself
(the `ValueError` from `dim`) are not caught and propagate (`none`). -/
def Sprite.row (s : Sprite) (index : Int) : Option Str :=
  match s.rows with
  | none => none
  | some rs =>
      match pyListGet rs index with
      | some line => some line
      | none => s.blank_row

/-- Embeds `sprites.NullSprite = Sprite(BLANK, padding=BLANK)`. -/
def NullSprite : Sprite := Sprite.mk BLANK BLANK Alignment.LEFT 0 0

/-- The row-concatenation loop of `Sprite.merge` for `edge == RIGHT`:
`merged_lines.append(f"{current.row(i)}{adjacent.row(i)}")` for each index. -/
def Sprite.mergeRows (current adjacent : Sprite) : List Nat → Option (List Str)
  | [] => some []
  | i :: rest =>
      match current.row (Int.ofNat i), adjacent.row (Int.ofNat i) with
      | some line, some adjacent_line =>
          match Sprite.mergeRows current adjacent rest with
          | some restRows => some ((line ++ adjacent_line) :: restRows)
          | none => none
      | _, _ => none

/-- Embeds `Sprite.merge(edge, align, *sprites)`: right-fold merge of a sprite list
along `RIGHT` or `BOTTOM`.  The operands are re-rendered from their textboxes
with the reconciled `min_height` (resp. `min_width`) copied over their own
options, exactly as the Python builds `Sprite(this.textbox, **this_kwargs)`. -/
def Sprite.merge (edge align : Alignment) : List Sprite → Option Sprite
  | [] => some NullSprite
  | [s] => some s
  | s1 :: s2 :: rest =>
    match Sprite.merge edge align (s2 :: rest) with
    | none => none
    | some nxt =>
      match s1.dim, nxt.dim with
      | some d1, some d2 =>
        let min_width := max d1.1 d2.1
        let min_height := max d1.2 d2.2
        if edge = Alignment.RIGHT then
          match s1.textbox, nxt.textbox with
          | some tb1, some tb2 =>
            let current := Sprite.mk tb1 s1.padding s1.align s1.min_width min_height
            let adjacent := Sprite.mk tb2 nxt.padding nxt.align nxt.min_width min_height
            match Sprite.mergeRows current adjacent (List.range min_height) with
            | some merged_lines => some (Sprite.mk (pyJoin merged_lines) SPACE align 0 0)
            | none => none
          | _, _ => none
        else if edge = Alignment.BOTTOM then
          match s1.textbox, nxt.textbox with
          | some tb1, some tb2 =>
            let current := Sprite.mk tb1 s1.padding s1.align min_width s1.min_height
            let adjacent := Sprite.mk tb2 nxt.padding nxt.align min_width nxt.min_height
            match current.rows, adjacent.rows with
            | some cr, some ar => some (Sprite.mk (pyJoin (cr ++ ar)) SPACE align 0 0)
            | _, _ => none
          | _, _ => none
        else some (Sprite.mk (pyJoin []) SPACE align 0 0)
      | _, _ => none

/-- Embeds `Sprite.wrap(sprite, *margins, padding)`: adds blank rows / padded
columns on the four edges; a non-`BLANK` `padding` first re-renders the inner
sprite with that padding. -/
def Sprite.wrap (sprite : Sprite) (margins : List (Alignment × Nat)) (padding : Str) :
    Option Sprite :=
  let wrapped : Alignment → Nat := fun a =>
    margins.foldl (fun acc p => if p.1 = a then p.2 else acc) 0
  let inner : Option Sprite :=
    if padding = BLANK then some sprite
    else
      match sprite.textbox with
      | none => none
      | some tb =>
          some (Sprite.mk tb padding sprite.align sprite.min_width sprite.min_height)
  match inner with
  | none => none
  | some spr =>
    match spr.blank_row, spr.rows with
    | some br, some rs =>
        let top := List.replicate (wrapped Alignment.TOP) br
        let bottom := List.replicate (wrapped Alignment.BOTTOM) br
        let lft := pyRepeat padding (wrapped Alignment.LEFT)
        let rgt := pyRepeat padding (wrapped Alignment.RIGHT)
        let wrapped_lines := top ++ rs.map (fun line => lft ++ line ++ rgt) ++ bottom
        some (Sprite.mk (pyJoin wrapped_lines) padding Alignment.LEFT 0 0)
    | _, _ => none

/-! Section: Lemmas about the string-layer primitives -/

theorem pyRepeat_length (s : Str) (n : Nat) : (pyRepeat s n).length = n * s.length := by
  induction n with
  | zero => simp [pyRepeat]
  | succ n ih => simp [pyRepeat, ih, Nat.succ_mul]; omega

theorem mem_pyRepeat {c : Char} {s : Str} {n : Nat} (h : c ∈ pyRepeat s n) : c ∈ s := by
  induction n with
  | zero => simp [pyRepeat] at h
  | succ n ih =>
      simp only [pyRepeat, List.mem_append] at h
      rcases h with h | h
      · exact h
      · exact ih h

theorem pyRepeat_single (c : Char) (n : Nat) : pyRepeat [c] n = List.replicate n c := by
  induction n with
  | zero => rfl
  | succ n ih => simp [pyRepeat, ih, List.replicate_succ]

theorem splitlinesAux_no_newline (l : Str) (hl : '\n' ∉ l) (acc : Str) :
    splitlinesAux l acc = if acc.reverse ++ l = [] then [] else [acc.reverse ++ l] := by
  induction l generalizing acc with
  | nil => simp [splitlinesAux]
  | cons c rest ih =>
      have hc : ¬ c = '\n' := by
        intro h; exact hl (h ▸ List.mem_cons_self c rest)
      have hrest : '\n' ∉ rest := fun h => hl (List.mem_cons_of_mem c h)
      rw [splitlinesAux, if_neg hc, ih hrest]
      simp

theorem splitlines_single (l : Str) (hl : '\n' ∉ l) (hne : l ≠ []) :
    splitlines l = [l] := by
  rw [splitlines, splitlinesAux_no_newline l hl []]
  simp [hne]

theorem splitlinesAux_break (l rest : Str) (hl : '\n' ∉ l) (acc : Str) :
    splitlinesAux (l ++ '\n' :: rest) acc = (acc.reverse ++ l) :: splitlinesAux rest [] := by
  induction l generalizing acc with
  | nil => simp [splitlinesAux]
  | cons c l ih =>
      have hc : ¬ c = '\n' := by
        intro h; exact hl (h ▸ List.mem_cons_self c l)
      have hl2 : '\n' ∉ l := fun h => hl (List.mem_cons_of_mem c h)
      rw [List.cons_append, splitlinesAux, if_neg hc, ih hl2]
      simp

theorem splitlines_break (l rest : Str) (hl : '\n' ∉ l) :
    splitlines (l ++ '\n' :: rest) = l :: splitlines rest := by
  rw [splitlines, splitlinesAux_break l rest hl []]
  simp [splitlines]

theorem splitlines_pyJoin (L : List Str) (h : ∀ l ∈ L, '\n' ∉ l ∧ l ≠ []) :
    splitlines (pyJoin L) = L := by
  induction L with
  | nil => rfl
  | cons l L ih =>
      rcases h l (List.mem_cons_self l L) with ⟨hnl, hne⟩
      cases L with
      | nil => exact splitlines_single l hnl hne
      | cons l2 L2 =>
          rw [pyJoin, splitlines_break l (pyJoin (l2 :: L2)) hnl]
          rw [ih (fun x hx => h x (List.mem_cons_of_mem l hx))]

theorem splitlinesAux_mem_no_newline (s : Str) :
    ∀ acc, '\n' ∉ acc → ∀ l ∈ splitlinesAux s acc, '\n' ∉ l := by
  induction s with
  | nil =>
      intro acc hacc l hl
      rw [splitlinesAux] at hl
      split at hl
      · simp at hl
      · simp at hl
        subst hl
        simp only [List.mem_reverse]
        exact hacc
  | cons c rest ih =>
      intro acc hacc l hl
      rw [splitlinesAux] at hl
      by_cases hc : c = '\n'
      · rw [if_pos hc] at hl
        rcases List.mem_cons.mp hl with h | h
        · subst h; simp only [List.mem_reverse]; exact hacc
        · exact ih [] (by simp) l h
      · rw [if_neg hc] at hl
        refine ih (c :: acc) ?_ l hl
        intro hmem
        rcases List.mem_cons.mp hmem with h | h
        · exact hc h.symm
        · exact hacc h

theorem splitlines_no_newline (s : Str) : ∀ l ∈ splitlines s, '\n' ∉ l :=
  splitlinesAux_mem_no_newline s [] (by simp)

theorem pyMaxNat_le (L : List Nat) (m : Nat) (h : pyMaxNat L = some m) :
    ∀ x ∈ L, x ≤ m := by
  induction L generalizing m with
  | nil => simp [pyMaxNat] at h
  | cons x L ih =>
      cases L with
      | nil =>
          simp only [pyMaxNat, Option.some.injEq] at h
          intro y hy
          simp at hy
          omega
      | cons y L2 =>
          rw [pyMaxNat] at h
          cases hrec : pyMaxNat (y :: L2) with
          | none => rw [hrec] at h; simp at h
          | some m2 =>
              rw [hrec] at h
              simp only [Option.map_some', Option.some.injEq] at h
              intro z hz
              rcases List.mem_cons.mp hz with rfl | hz2
              · omega
              · have := ih m2 hrec z hz2
                omega

theorem pyMaxNat_ne_nil (L : List Nat) (m : Nat) (h : pyMaxNat L = some m) : L ≠ [] := by
  intro hnil; subst hnil; simp [pyMaxNat] at h

theorem pyMaxNat_const (L : List Nat) (w : Nat) (hne : L ≠ []) (h : ∀ x ∈ L, x = w) :
    pyMaxNat L = some w := by
  induction L with
  | nil => exact absurd rfl hne
  | cons x L ih =>
      have hx : x = w := h x (List.mem_cons_self x L)
      cases L with
      | nil => simp [pyMaxNat, hx]
      | cons y L2 =>
          rw [pyMaxNat, ih (by simp) (fun z hz => h z (List.mem_cons_of_mem x hz))]
          simp [hx]

theorem pyMaxNat_foldr (L : List Nat) (hne : L ≠ []) :
    pyMaxNat L = some (L.foldr max 0) := by
  induction L with
  | nil => exact absurd rfl hne
  | cons x L ih =>
      cases L with
      | nil => simp [pyMaxNat]
      | cons y L2 =>
          rw [pyMaxNat, ih (by simp)]
          simp [List.foldr_cons]

/-! Section: Lemmas about `Sprite.margins` -/

theorem margins_of_le (d m : Nat) (a : Alignment) (v : Bool) (h : m ≤ d) :
    Sprite.margins d m a v = (0, 0) := by
  rw [Sprite.margins, if_pos h]

theorem margins_total (d m : Nat) (a : Alignment) (v : Bool) :
    (Sprite.margins d m a v).1 + d + (Sprite.margins d m a v).2 = max d m := by
  rw [Sprite.margins]
  by_cases h : m ≤ d
  · rw [if_pos h]; simp; omega
  · rw [if_neg h]
    by_cases hf : (if v then a.top else a.left) = true
    · simp only [hf, if_true]; simp; omega
    · simp only [hf]
      by_cases hb : (if v then a.bottom else a.right) = true
      · simp only [hb]; simp; omega
      · simp only [hb]; simp; omega

theorem margins_sum (d m : Nat) (a : Alignment) (v : Bool) (h : d < m) :
    (Sprite.margins d m a v).1 + (Sprite.margins d m a v).2 = m - d := by
  have := margins_total d m a v
  omega

/-! Section: Characterisation of `Sprite.dim` -/

theorem dim_some {s : Sprite} {w h : Nat} (hd : s.dim = some (w, h)) :
    ∃ w0, pyMaxNat ((splitlines s.ascii).map List.length) = some w0 ∧
      w = max w0 s.min_width ∧ h = max (splitlines s.ascii).length s.min_height := by
  rw [Sprite.dim] at hd
  cases hmax : pyMaxNat ((splitlines s.ascii).map List.length) with
  | none => rw [hmax] at hd; simp at hd
  | some w0 =>
      rw [hmax] at hd
      simp only [Option.some.injEq, Prod.mk.injEq] at hd
      exact ⟨w0, rfl, hd.1.symm, hd.2.symm⟩

theorem dim_bounds {s : Sprite} {w h : Nat} (hd : s.dim = some (w, h)) :
    s.min_width ≤ w ∧ s.min_height ≤ h ∧ (splitlines s.ascii).length ≤ h ∧
      (∀ l ∈ splitlines s.ascii, l.length ≤ w) ∧ splitlines s.ascii ≠ [] := by
  obtain ⟨w0, hmax, hw0, hh0⟩ := dim_some hd
  refine ⟨by omega, by omega, by omega, ?_, ?_⟩
  · intro l hl
    have := pyMaxNat_le _ w0 hmax l.length (List.mem_map_of_mem List.length hl)
    omega
  · intro hnil
    rw [hnil] at hmax
    simp [pyMaxNat] at hmax

/-! Section: The rectangularity of `renderRows` / `textbox` / `rows` -/

theorem renderRows_spec (s : Sprite) (w h : Nat)
    (hp : s.padding.length = 1) (hnp : '\n' ∉ s.padding) (hw : 1 ≤ w)
    (hline_le : ∀ l ∈ splitlines s.ascii, l.length ≤ w)
    (hlen : (splitlines s.ascii).length ≤ h) :
    (s.renderRows w h).length = h ∧
      ∀ r ∈ s.renderRows w h, r.length = w ∧ '\n' ∉ r ∧ r ≠ [] := by
  have hpad_mem : ∀ r ∈ (splitlines s.ascii).map (fun line =>
      pyRepeat s.padding (Sprite.margins line.length w s.align false).1 ++ line ++
        pyRepeat s.padding (Sprite.margins line.length w s.align false).2),
      r.length = w ∧ '\n' ∉ r ∧ r ≠ [] := by
    intro r hr
    rcases List.mem_map.mp hr with ⟨line, hline, rfl⟩
    have hmarg := margins_total line.length w s.align false
    have hlew : line.length ≤ w := hline_le line hline
    have hlength : (pyRepeat s.padding (Sprite.margins line.length w s.align false).1 ++ line ++
        pyRepeat s.padding (Sprite.margins line.length w s.align false).2).length = w := by
      simp only [List.length_append, pyRepeat_length, hp]
      omega
    refine ⟨hlength, ?_, ?_⟩
    · intro hmem
      simp only [List.mem_append] at hmem
      rcases hmem with (hmem | hmem) | hmem
      · exact hnp (mem_pyRepeat hmem)
      · exact splitlines_no_newline s.ascii line hline hmem
      · exact hnp (mem_pyRepeat hmem)
    · intro hnil
      rw [hnil] at hlength
      simp at hlength
      omega
  simp only [Sprite.renderRows, List.length_map]
  by_cases hcase : h ≤ (splitlines s.ascii).length
  · rw [if_pos hcase]
    have : (splitlines s.ascii).length = h := le_antisymm hlen hcase
    refine ⟨by simpa using this, hpad_mem⟩
  · rw [if_neg hcase]
    have hlt : (splitlines s.ascii).length < h := by omega
    have hpadrow : (pyRepeat s.padding w).length = w ∧ '\n' ∉ pyRepeat s.padding w ∧
        pyRepeat s.padding w ≠ [] := by
      refine ⟨by simp [pyRepeat_length, hp], fun hmem => hnp (mem_pyRepeat hmem), ?_⟩
      intro hnil
      have := pyRepeat_length s.padding w
      rw [hnil] at this
      simp [hp] at this
      omega
    constructor
    · have hsum := margins_sum ((splitlines s.ascii).map List.length).length h s.align true
        (by simpa using hlt)
      simp only [List.length_append, List.length_replicate, List.length_map] at hsum ⊢
      omega
    · intro r hr
      simp only [List.mem_append] at hr
      rcases hr with (hr | hr) | hr
      · rw [List.eq_of_mem_replicate hr]; exact hpadrow
      · exact hpad_mem r hr
      · rw [List.eq_of_mem_replicate hr]; exact hpadrow

theorem render_spec {s : Sprite} {w h : Nat} (hd : s.dim = some (w, h))
    (hp : s.padding.length = 1) (hnp : '\n' ∉ s.padding) (hw : 1 ≤ w) :
    s.textbox = some (pyJoin (s.renderRows w h)) ∧
      s.rows = some (s.renderRows w h) ∧
      (s.renderRows w h).length = h ∧
      ∀ r ∈ s.renderRows w h, r.length = w ∧ '\n' ∉ r ∧ r ≠ [] := by
  obtain ⟨hmw, hmh, hlen, hline_le, hLne⟩ := dim_bounds hd
  obtain ⟨hrlen, hrmem⟩ := renderRows_spec s w h hp hnp hw hline_le hlen
  have htb : s.textbox = some (pyJoin (s.renderRows w h)) := by
    have h1 : max w s.min_width = w := by omega
    have h2 : max h s.min_height = h := by omega
    simp only [Sprite.textbox, hd, h1, h2]
  refine ⟨htb, ?_, hrlen, hrmem⟩
  rw [Sprite.rows, htb]
  simp only [Option.map_some', Option.some.injEq]
  exact splitlines_pyJoin _ (fun l hl => ⟨(hrmem l hl).2.1, (hrmem l hl).2.2⟩)

/-! Section: Sprites built from an already-rectangular row list -/

theorem uniform_setup (L : List Str) (w : Nat) (hw : 1 ≤ w) (hLne : L ≠ [])
    (hmem : ∀ r ∈ L, r.length = w ∧ '\n' ∉ r) :
    splitlines (pyJoin L) = L ∧ pyMaxNat (L.map List.length) = some w := by
  constructor
  · refine splitlines_pyJoin L (fun l hl => ⟨(hmem l hl).2, ?_⟩)
    intro hnil
    have := (hmem l hl).1
    rw [hnil] at this
    simp at this
    omega
  · refine pyMaxNat_const _ w (by simpa using hLne) ?_
    intro x hx
    rcases List.mem_map.mp hx with ⟨l, hl, rfl⟩
    exact (hmem l hl).1

theorem rows_uniform (L : List Str) (p : Str) (a : Alignment) (mw mh w : Nat)
    (hw : 1 ≤ w) (hLne : L ≠ []) (hmem : ∀ r ∈ L, r.length = w ∧ '\n' ∉ r)
    (hmw : mw ≤ w) (hmh : mh ≤ L.length) :
    (Sprite.mk (pyJoin L) p a mw mh).dim = some (w, L.length) ∧
      (Sprite.mk (pyJoin L) p a mw mh).rows = some L := by
  obtain ⟨hsplit, hmax⟩ := uniform_setup L w hw hLne hmem
  have hdim : (Sprite.mk (pyJoin L) p a mw mh).dim = some (w, L.length) := by
    simp only [Sprite.dim, hsplit, hmax]
    have h1 : max w mw = w := by omega
    have h2 : max L.length mh = L.length := by omega
    rw [h1, h2]
  have hrender : (Sprite.mk (pyJoin L) p a mw mh).renderRows w L.length = L := by
    simp only [Sprite.renderRows, hsplit]
    have hmapid : L.map (fun line =>
        pyRepeat p (Sprite.margins line.length w a false).1 ++ line ++
          pyRepeat p (Sprite.margins line.length w a false).2) = L := by
      have := List.map_congr_left (l := L)
        (f := fun line => pyRepeat p (Sprite.margins line.length w a false).1 ++ line ++
          pyRepeat p (Sprite.margins line.length w a false).2)
        (g := fun line => line)
        (by
          intro l hl
          simp only [(hmem l hl).1, margins_of_le w w a false (le_refl w), pyRepeat]
          simp)
      rw [this, List.map_id']
    rw [hmapid, if_pos (by simp)]
  have htb : (Sprite.mk (pyJoin L) p a mw mh).textbox = some (pyJoin L) := by
    have h1 : max w mw = w := by omega
    have h2 : max L.length mh = L.length := by omega
    simp only [Sprite.textbox, hdim, h1, h2, hrender]
  refine ⟨hdim, ?_⟩
  rw [Sprite.rows, htb]
  simp only [Option.map_some', Option.some.injEq]
  exact hsplit

theorem rerender_vert (L : List Str) (p : Str) (a : Alignment) (mw n w : Nat)
    (hw : 1 ≤ w) (hLne : L ≠ []) (hmem : ∀ r ∈ L, r.length = w ∧ '\n' ∉ r)
    (hp : p.length = 1) (hnp : '\n' ∉ p) (hmw : mw ≤ w) (hn : L.length ≤ n) :
    (Sprite.mk (pyJoin L) p a mw n).dim = some (w, n) ∧
      (Sprite.mk (pyJoin L) p a mw n).rows =
        some (List.replicate (Sprite.margins L.length n a true).1 (pyRepeat p w) ++ L ++
          List.replicate (Sprite.margins L.length n a true).2 (pyRepeat p w)) := by
  obtain ⟨hsplit, hmax⟩ := uniform_setup L w hw hLne hmem
  have hdim : (Sprite.mk (pyJoin L) p a mw n).dim = some (w, n) := by
    simp only [Sprite.dim, hsplit, hmax]
    have h1 : max w mw = w := by omega
    have h2 : max L.length n = n := by omega
    rw [h1, h2]
  have hrender : (Sprite.mk (pyJoin L) p a mw n).renderRows w n =
      List.replicate (Sprite.margins L.length n a true).1 (pyRepeat p w) ++ L ++
        List.replicate (Sprite.margins L.length n a true).2 (pyRepeat p w) := by
    simp only [Sprite.renderRows, hsplit]
    have hmapid : L.map (fun line =>
        pyRepeat p (Sprite.margins line.length w a false).1 ++ line ++
          pyRepeat p (Sprite.margins line.length w a false).2) = L := by
      have := List.map_congr_left (l := L)
        (f := fun line => pyRepeat p (Sprite.margins line.length w a false).1 ++ line ++
          pyRepeat p (Sprite.margins line.length w a false).2)
        (g := fun line => line)
        (by
          intro l hl
          simp only [(hmem l hl).1, margins_of_le w w a false (le_refl w), pyRepeat]
          simp)
      rw [this, List.map_id']
    rw [hmapid]
    by_cases hcase : n ≤ L.length
    · have hEq : L.length = n := by omega
      rw [if_pos hcase, hEq, margins_of_le n n a true (le_refl n)]
      simp
    · rw [if_neg hcase]
  have hspec := render_spec (s := Sprite.mk (pyJoin L) p a mw n) hdim hp hnp hw
  refine ⟨hdim, ?_⟩
  rw [hspec.2.1, hrender]

theorem rerender_horiz (L : List Str) (p : Str) (a : Alignment) (mh mw' w : Nat)
    (hw : 1 ≤ w) (hLne : L ≠ []) (hmem : ∀ r ∈ L, r.length = w ∧ '\n' ∉ r)
    (hp : p.length = 1) (hnp : '\n' ∉ p) (hw' : w ≤ mw') (hmh : mh ≤ L.length) :
    (Sprite.mk (pyJoin L) p a mw' mh).dim = some (mw', L.length) ∧
      (Sprite.mk (pyJoin L) p a mw' mh).rows =
        some (L.map (fun line =>
          pyRepeat p (Sprite.margins w mw' a false).1 ++ line ++
            pyRepeat p (Sprite.margins w mw' a false).2)) := by
  obtain ⟨hsplit, hmax⟩ := uniform_setup L w hw hLne hmem
  have hdim : (Sprite.mk (pyJoin L) p a mw' mh).dim = some (mw', L.length) := by
    simp only [Sprite.dim, hsplit, hmax]
    have h1 : max w mw' = mw' := by omega
    have h2 : max L.length mh = L.length := by omega
    rw [h1, h2]
  have hrender : (Sprite.mk (pyJoin L) p a mw' mh).renderRows mw' L.length =
      L.map (fun line =>
        pyRepeat p (Sprite.margins w mw' a false).1 ++ line ++
          pyRepeat p (Sprite.margins w mw' a false).2) := by
    simp only [Sprite.renderRows, hsplit]
    have hmap : L.map (fun line =>
        pyRepeat p (Sprite.margins line.length mw' a false).1 ++ line ++
          pyRepeat p (Sprite.margins line.length mw' a false).2) =
        L.map (fun line =>
          pyRepeat p (Sprite.margins w mw' a false).1 ++ line ++
            pyRepeat p (Sprite.margins w mw' a false).2) := by
      refine List.map_congr_left ?_
      intro l hl
      simp only [(hmem l hl).1]
    rw [hmap, if_pos (by simp)]
  have hspec := render_spec (s := Sprite.mk (pyJoin L) p a mw' mh) hdim hp hnp (by omega)
  refine ⟨hdim, ?_⟩
  rw [hspec.2.1, hrender]

/-! Section: Row access and the `RIGHT`-merge loop -/

theorem get?_eq_some_getD {α : Type} (l : List α) (n : Nat) (d : α) (h : n < l.length) :
    l.get? n = some (l.getD n d) := by
  rw [List.get?_eq_get h, List.getD_eq_getElem?_getD, ← List.get?_eq_getElem?,
    List.get?_eq_get h]
  rfl

theorem row_nat {s : Sprite} {rs : List Str} (hr : s.rows = some rs) (i : Nat)
    (hi : i < rs.length) : s.row (Int.ofNat i) = some (rs.getD i []) := by
  simp only [Sprite.row, hr]
  have hget : pyListGet rs (Int.ofNat i) = rs.get? i := by
    simp [pyListGet, Int.ofNat_nonneg i]
  rw [hget, get?_eq_some_getD rs i [] hi]

theorem mergeRows_eq (c a : Sprite) (rc ra : List Str) (hc : c.rows = some rc)
    (ha : a.rows = some ra) :
    ∀ idxs : List Nat, (∀ i ∈ idxs, i < rc.length ∧ i < ra.length) →
      Sprite.mergeRows c a idxs =
        some (idxs.map (fun i => rc.getD i [] ++ ra.getD i [])) := by
  intro idxs hidx
  induction idxs with
  | nil => rfl
  | cons i rest ih =>
      have hi := hidx i (List.mem_cons_self i rest)
      rw [Sprite.mergeRows, row_nat hc i hi.1, row_nat ha i hi.2,
        ih (fun j hj => hidx j (List.mem_cons_of_mem i hj))]
      simp

theorem map_range_getD_zipWith (rc : List Str) :
    ∀ (ra : List Str), rc.length = ra.length →
      (List.range rc.length).map (fun i => rc.getD i [] ++ ra.getD i []) =
        List.zipWith (fun x y => x ++ y) rc ra := by
  induction rc with
  | nil => intro ra hlen; simp
  | cons x rc ih =>
      intro ra hlen
      cases ra with
      | nil => simp at hlen
      | cons y ra =>
          simp only [List.length_cons] at hlen ⊢
          rw [List.range_succ_eq_map]
          simp only [List.map_cons, List.getD_cons_zero, List.map_map, List.zipWith_cons_cons]
          refine congrArg _ ?_
          have heq : ((fun i => (x :: rc).getD i [] ++ (y :: ra).getD i []) ∘ Nat.succ) =
              fun i => rc.getD i [] ++ ra.getD i [] := by
            funext i
            simp [Function.comp, List.getD_cons_succ]
          rw [heq, ih ra (by omega)]

theorem mergeRows_range (c a : Sprite) (rc ra : List Str) (n : Nat)
    (hc : c.rows = some rc) (ha : a.rows = some ra)
    (hcl : rc.length = n) (hal : ra.length = n) :
    Sprite.mergeRows c a (List.range n) =
      some (List.zipWith (fun x y => x ++ y) rc ra) := by
  have h1 := mergeRows_eq c a rc ra hc ha (List.range n)
    (fun i hi => by
      have := List.mem_range.mp hi
      omega)
  rw [h1, ← hcl, map_range_getD_zipWith rc ra (by omega)]

theorem zipWith_append_uniform (wa wb : Nat) :
    ∀ (A B : List Str), (∀ x ∈ A, x.length = wa ∧ '\n' ∉ x) →
      (∀ y ∈ B, y.length = wb ∧ '\n' ∉ y) →
      ∀ r ∈ List.zipWith (fun x y => x ++ y) A B, r.length = wa + wb ∧ '\n' ∉ r := by
  intro A
  induction A with
  | nil => intro B hA hB r hr; simp at hr
  | cons x A ih =>
      intro B hA hB r hr
      cases B with
      | nil => simp at hr
      | cons y B =>
          simp only [List.zipWith_cons_cons, List.mem_cons] at hr
          rcases hr with rfl | hr
          · have hx := hA x (List.mem_cons_self x A)
            have hy := hB y (List.mem_cons_self y B)
            constructor
            · simp [hx.1, hy.1]
            · intro hmem
              rcases List.mem_append.mp hmem with hmem | hmem
              · exact hx.2 hmem
              · exact hy.2 hmem
          · exact ih B (fun z hz => hA z (List.mem_cons_of_mem x hz))
              (fun z hz => hB z (List.mem_cons_of_mem y hz)) r hr

/-! Section: Support for the merge and wrap claims -/

theorem foldr_max_const (v : Nat) :
    ∀ (L : List Nat), (∀ x ∈ L, x = v) → L ≠ [] → L.foldr max 0 = v := by
  intro L
  induction L with
  | nil => intro _ h; exact absurd rfl h
  | cons x L ih =>
      intro hmem _
      have hx : x = v := hmem x (List.mem_cons_self x L)
      cases L with
      | nil => simp [hx]
      | cons y L2 =>
          rw [List.foldr_cons, ih (fun z hz => hmem z (List.mem_cons_of_mem x hz)) (by simp)]
          omega

theorem padded_map_uniform (L : List Str) (p : Str) (a : Alignment) (w mw' : Nat)
    (hp : p.length = 1) (hnp : '\n' ∉ p)
    (hmem : ∀ r ∈ L, r.length = w ∧ '\n' ∉ r) (hle : w ≤ mw') :
    ∀ r ∈ L.map (fun line =>
        pyRepeat p (Sprite.margins w mw' a false).1 ++ line ++
          pyRepeat p (Sprite.margins w mw' a false).2),
      r.length = mw' ∧ '\n' ∉ r := by
  intro r hr
  rcases List.mem_map.mp hr with ⟨line, hline, rfl⟩
  have hsum := margins_total w mw' a false
  constructor
  · simp only [List.length_append, pyRepeat_length, hp, (hmem line hline).1]
    omega
  · intro hin
    rcases List.mem_append.mp hin with hin | hin
    · rcases List.mem_append.mp hin with hin | hin
      · exact hnp (mem_pyRepeat hin)
      · exact (hmem line hline).2 hin
    · exact hnp (mem_pyRepeat hin)

/-! Section: Claim theorems -/

/-- C1 counterexample: the spec-sanctioned `BLANK` padding (the empty string,
documented as "collapses the box") already violates rectangularity: the sprite
`Sprite('a\nbb', padding='')` has `dim == (2, 2)` but its first row `'a'` has
length 1, not 2. -/
theorem rectangularityFailsOnBlankPadding :
    (Sprite.mk ['a', '\n', 'b', 'b'] BLANK Alignment.LEFT 0 0).dim = some (2, 2) ∧
    (Sprite.mk ['a', '\n', 'b', 'b'] BLANK Alignment.LEFT 0 0).rows =
      some [['a'], ['b', 'b']] ∧
    ¬ ∀ r ∈ [['a'], ['b', 'b']], List.length r = 2 := by
  refine ⟨by decide, by decide, ?_⟩
  decide

/-- C1 (corrected): for every Sprite whose padding is a single non-newline
character, whose text is non-empty (so `dim` is defined) and whose box width is
positive, `rows` consists of exactly `dim.height` rows of exactly `dim.width`
characters each. -/
theorem rectangularity (s : Sprite) (w h : Nat) (hd : s.dim = some (w, h))
    (hp : s.padding.length = 1) (hnp : '\n' ∉ s.padding) (hw : 1 ≤ w) :
    ∃ rs, s.rows = some rs ∧ rs.length = h ∧ ∀ r ∈ rs, r.length = w := by
  obtain ⟨-, hrows, hlen, hmem⟩ := render_spec hd hp hnp hw
  exact ⟨_, hrows, hlen, fun r hr => (hmem r hr).1⟩

/-- C1 witness: the corrected rectangularity statement evaluated on the
sprite `Sprite('a\nbb')` with the default space padding. -/
theorem rectangularityWitness :
    ∃ rs, (Sprite.mk ['a', '\n', 'b', 'b'] SPACE Alignment.LEFT 0 0).rows = some rs ∧
      rs.length = 2 ∧ ∀ r ∈ rs, r.length = 2 :=
  rectangularity (Sprite.mk ['a', '\n', 'b', 'b'] SPACE Alignment.LEFT 0 0) 2 2
    (by decide) (by decide) (by decide) (by decide)

/-- C2 (confirmed): `margins` always returns a pair summing with `dim` to
`max dim min_dim`, returns `(0, 0)` whenever `dim ≥ min_dim`, and when the
alignment is neither front nor back splits the deficit as
`(floor((min_dim-dim)/2), ceil((min_dim-dim)/2))` — the extra odd unit going to
the back — with `margins(5, 10, CENTER) == (2, 3)` in particular. -/
theorem marginsPostcondition :
    (∀ (d m : Nat) (a : Alignment) (v : Bool),
        (Sprite.margins d m a v).1 + d + (Sprite.margins d m a v).2 = max d m
      ∧ (m ≤ d → Sprite.margins d m a v = (0, 0))
      ∧ ((if v then a.top else a.left) = false → (if v then a.bottom else a.right) = false →
          d < m →
          Sprite.margins d m a v = ((m - d) / 2, (m - d) / 2 + (m - d) % 2))) ∧
    Sprite.margins 5 10 Alignment.CENTER false = (2, 3) := by
  constructor
  · intro d m a v
    refine ⟨margins_total d m a v, fun h => margins_of_le d m a v h, ?_⟩
    intro hf hb hlt
    rw [Sprite.margins, if_neg (by omega)]
    simp only [hf, hb]
    simp
  · decide

/-- C2 witness: the centre-split clause of `marginsPostcondition` evaluated at
`margins(5, 10, CENTER)`. -/
theorem marginsPostconditionWitness :
    Sprite.margins 5 10 Alignment.CENTER false = ((10 - 5) / 2, (10 - 5) / 2 + (10 - 5) % 2) :=
  (marginsPostcondition.1 5 10 Alignment.CENTER false).2.2 (by decide) (by decide) (by decide)

/-- C5 (code_bug): the zero-sprite and one-sprite merges do yield `NullSprite`
and the sprite itself, but actually merging `NullSprite` together with another
sprite raises `ValueError` (modelled `none`): `NullSprite.dim` calls `max` on
an empty sequence, so `NullSprite` is not a usable identity element of
`merge`. -/
theorem nullSpriteMergeIdentityFails :
    Sprite.merge Alignment.RIGHT Alignment.LEFT [] = some NullSprite ∧
    (∀ s : Sprite, Sprite.merge Alignment.RIGHT Alignment.LEFT [s] = some s) ∧
    Sprite.merge Alignment.RIGHT Alignment.LEFT
      [Sprite.mk ['a'] SPACE Alignment.LEFT 0 0, NullSprite] = none := by
  refine ⟨rfl, fun s => rfl, by decide⟩

/-- C6 (code_bug): the geometry operations are not total on their documented
domain: `row` on `NullSprite` propagates the `ValueError` raised by `dim`
(only `IndexError` is caught), and a `NullSprite` among the operands of a
multi-sprite merge crashes the whole merge. -/
theorem geometryTotalityFails :
    NullSprite.row 0 = none ∧
    Sprite.merge Alignment.RIGHT Alignment.CENTER
      [Sprite.mk ['a'] SPACE Alignment.LEFT 0 0, NullSprite,
        Sprite.mk ['b'] SPACE Alignment.LEFT 0 0] = none := by
  refine ⟨rfl, by decide⟩

/-- C7 (code_bug): `dim` on a Sprite whose text is the empty string is NOT
defined: `width = max(lines_width)` is evaluated on an empty list and raises
`ValueError` (modelled `none`) for every combination of the remaining
fields, instead of returning `(max 0 min_width, max 0 min_height)`. -/
theorem dimEmptyTextRaises :
    NullSprite.dim = none ∧
      ∀ (p : Str) (a : Alignment) (mw mh : Nat), (Sprite.mk [] p a mw mh).dim = none := by
  exact ⟨rfl, fun p a mw mh => rfl⟩

/-- C10 (confirmed): `row(index)` follows Python list indexing: a non-negative
in-range index returns that row, a negative index `-len ≤ i < 0` returns the
row counted from the end (`rows[len + i]`), and the `blank_row` fallback is
returned exactly when indexing fails (`i ≥ len` or `i < -len`). -/
theorem rowNegativeIndex (s : Sprite) (rs : List Str) (hr : s.rows = some rs) (i : Int) :
    (0 ≤ i → i < rs.length → s.row i = rs.get? i.toNat) ∧
    (-(rs.length : Int) ≤ i → i < 0 → s.row i = rs.get? ((rs.length : Int) + i).toNat) ∧
    ((rs.length : Int) ≤ i ∨ i < -(rs.length : Int) → s.row i = s.blank_row) := by
  refine ⟨?_, ?_, ?_⟩
  · intro h1 h2
    have htoNat : i.toNat < rs.length := by omega
    have hget : pyListGet rs i = rs.get? i.toNat := by
      simp [pyListGet, h1]
    simp only [Sprite.row, hr, hget, get?_eq_some_getD rs i.toNat [] htoNat]
  · intro h1 h2
    have hnonneg : 0 ≤ (rs.length : Int) + i := by omega
    have htoNat : ((rs.length : Int) + i).toNat < rs.length := by omega
    have hget : pyListGet rs i = rs.get? ((rs.length : Int) + i).toNat := by
      rw [pyListGet]
      rw [if_neg (by omega), if_pos hnonneg]
    simp only [Sprite.row, hr, hget,
      get?_eq_some_getD rs ((rs.length : Int) + i).toNat [] htoNat]
  · intro hcase
    rcases hcase with hcase | hcase
    · have hget : pyListGet rs i = none := by
        rw [pyListGet, if_pos (by omega)]
        exact List.get?_eq_none.mpr (by omega)
      simp only [Sprite.row, hr, hget]
    · have hget : pyListGet rs i = none := by
        rw [pyListGet, if_neg (by omega), if_neg (by omega)]
      simp only [Sprite.row, hr, hget]

/-- C10 witness: `row(-1)` on `Sprite('a\nb')` returns the last row, not the
blank fallback. -/
theorem rowNegativeIndexWitness :
    (Sprite.mk ['a', '\n', 'b'] SPACE Alignment.LEFT 0 0).row (-1) = some ['b'] := by
  have h := (rowNegativeIndex (Sprite.mk ['a', '\n', 'b'] SPACE Alignment.LEFT 0 0)
    [['a'], ['b']] (by decide) (-1)).2.1 (by decide) (by decide)
  rw [h]
  decide

/-- C4 counterexample: with the spec-sanctioned `BLANK` padding the claim
fails: merging `Sprite('ab')` (height 1) below with `Sprite('x', padding='',
min_height=2)` (height 2) yields a sprite of height 2, not 1 + 2 = 3 — the
blank-padded rows collapse away in `splitlines`. -/
theorem mergeBottomFailsOnBlankPadding :
    (Sprite.mk ['a', 'b'] SPACE Alignment.LEFT 0 0).dim = some (2, 1) ∧
    (Sprite.mk ['x'] BLANK Alignment.LEFT 0 2).dim = some (1, 2) ∧
    ((Sprite.merge Alignment.BOTTOM Alignment.LEFT
        [Sprite.mk ['a', 'b'] SPACE Alignment.LEFT 0 0,
          Sprite.mk ['x'] BLANK Alignment.LEFT 0 2]).bind Sprite.dim) = some (2, 2) ∧
    (2 : Nat) ≠ 1 + 2 := by
  refine ⟨by decide, by decide, by decide, by decide⟩

/-- C4 (corrected): for sprites with single non-newline-character paddings,
non-empty texts and positive widths, `merge(BOTTOM, align, s1, s2)` re-renders
both operands with `min_width = max(w1, w2)` (heights untouched) and its rows
are exactly the re-rendered rows of `s1` followed by those of `s2`, with total
height `h1 + h2`. -/
theorem mergeBottomSpec (s1 s2 : Sprite) (al : Alignment) (w1 h1 w2 h2 : Nat)
    (hd1 : s1.dim = some (w1, h1)) (hd2 : s2.dim = some (w2, h2))
    (hp1 : s1.padding.length = 1) (hnp1 : '\n' ∉ s1.padding) (hw1 : 1 ≤ w1)
    (hp2 : s2.padding.length = 1) (hnp2 : '\n' ∉ s2.padding) (hw2 : 1 ≤ w2) :
    ∃ m tb1 tb2 rc ra,
      s1.textbox = some tb1 ∧ s2.textbox = some tb2 ∧
      (Sprite.mk tb1 s1.padding s1.align (max w1 w2) s1.min_height).rows = some rc ∧
      (Sprite.mk tb2 s2.padding s2.align (max w1 w2) s2.min_height).rows = some ra ∧
      Sprite.merge Alignment.BOTTOM al [s1, s2] = some m ∧
      m.rows = some (rc ++ ra) ∧ m.dim = some (max w1 w2, h1 + h2) := by
  obtain ⟨htb1, hrows1, hlen1, hmem1⟩ := render_spec hd1 hp1 hnp1 hw1
  obtain ⟨htb2, hrows2, hlen2, hmem2⟩ := render_spec hd2 hp2 hnp2 hw2
  obtain ⟨hmw1, hmh1, hll1, hle1, hne1⟩ := dim_bounds hd1
  obtain ⟨hmw2, hmh2, hll2, hle2, hne2⟩ := dim_bounds hd2
  have hL1ne : s1.renderRows w1 h1 ≠ [] := by
    intro hnil
    rw [hnil] at hlen1
    simp at hlen1
    have : 1 ≤ (splitlines s1.ascii).length := List.length_pos.mpr hne1
    omega
  have hL2ne : s2.renderRows w2 h2 ≠ [] := by
    intro hnil
    rw [hnil] at hlen2
    simp at hlen2
    have : 1 ≤ (splitlines s2.ascii).length := List.length_pos.mpr hne2
    omega
  have hcur := rerender_horiz (s1.renderRows w1 h1) s1.padding s1.align s1.min_height
    (max w1 w2) w1 hw1 hL1ne (fun r hr => ⟨(hmem1 r hr).1, (hmem1 r hr).2.1⟩)
    hp1 hnp1 (le_max_left w1 w2) (by omega)
  have hadj := rerender_horiz (s2.renderRows w2 h2) s2.padding s2.align s2.min_height
    (max w1 w2) w2 hw2 hL2ne (fun r hr => ⟨(hmem2 r hr).1, (hmem2 r hr).2.1⟩)
    hp2 hnp2 (le_max_right w1 w2) (by omega)
  set rc := (s1.renderRows w1 h1).map (fun line =>
    pyRepeat s1.padding (Sprite.margins w1 (max w1 w2) s1.align false).1 ++ line ++
      pyRepeat s1.padding (Sprite.margins w1 (max w1 w2) s1.align false).2) with hrc
  set ra := (s2.renderRows w2 h2).map (fun line =>
    pyRepeat s2.padding (Sprite.margins w2 (max w1 w2) s2.align false).1 ++ line ++
      pyRepeat s2.padding (Sprite.margins w2 (max w1 w2) s2.align false).2) with hra
  have hrcu : ∀ r ∈ rc, r.length = max w1 w2 ∧ '\n' ∉ r :=
    padded_map_uniform (s1.renderRows w1 h1) s1.padding s1.align w1 (max w1 w2)
      hp1 hnp1 (fun r hr => ⟨(hmem1 r hr).1, (hmem1 r hr).2.1⟩) (le_max_left w1 w2)
  have hrau : ∀ r ∈ ra, r.length = max w1 w2 ∧ '\n' ∉ r :=
    padded_map_uniform (s2.renderRows w2 h2) s2.padding s2.align w2 (max w1 w2)
      hp2 hnp2 (fun r hr => ⟨(hmem2 r hr).1, (hmem2 r hr).2.1⟩) (le_max_right w1 w2)
  have hcatu : ∀ r ∈ rc ++ ra, r.length = max w1 w2 ∧ '\n' ∉ r := by
    intro r hr
    rcases List.mem_append.mp hr with hr | hr
    · exact hrcu r hr
    · exact hrau r hr
  have hcatne : rc ++ ra ≠ [] := by
    intro hnil
    rcases List.append_eq_nil.mp hnil with ⟨h1nil, -⟩
    exact hL1ne (List.map_eq_nil_iff.mp h1nil)
  have hm := rows_uniform (rc ++ ra) SPACE al 0 0 (max w1 w2) (by omega) hcatne hcatu
    (by omega) (by omega)
  have hmerge : Sprite.merge Alignment.BOTTOM al [s1, s2] =
      some (Sprite.mk (pyJoin (rc ++ ra)) SPACE al 0 0) := by
    simp only [Sprite.merge, hd1, hd2, htb1, htb2]
    rw [if_neg (by decide), if_pos trivial]
    rw [hcur.2, hadj.2]
  have hlenrc : rc.length = h1 := by
    rw [hrc]
    simp [hlen1]
  have hlenra : ra.length = h2 := by
    rw [hra]
    simp [hlen2]
  refine ⟨Sprite.mk (pyJoin (rc ++ ra)) SPACE al 0 0, pyJoin (s1.renderRows w1 h1),
    pyJoin (s2.renderRows w2 h2), rc, ra, htb1, htb2, hcur.2, hadj.2, hmerge, hm.2, ?_⟩
  rw [hm.1]
  simp [hlenrc, hlenra]

/-- C4 witness: the corrected BOTTOM-merge statement evaluated on
`Sprite('ab')` and `Sprite('x\nyz')`. -/
theorem mergeBottomSpecWitness :
    ∃ m tb1 tb2 rc ra,
      (Sprite.mk ['a', 'b'] SPACE Alignment.LEFT 0 0).textbox = some tb1 ∧
      (Sprite.mk ['x', '\n', 'y', 'z'] SPACE Alignment.LEFT 0 0).textbox = some tb2 ∧
      (Sprite.mk tb1 SPACE Alignment.LEFT (max 2 2) 0).rows = some rc ∧
      (Sprite.mk tb2 SPACE Alignment.LEFT (max 2 2) 0).rows = some ra ∧
      Sprite.merge Alignment.BOTTOM Alignment.CENTER
        [Sprite.mk ['a', 'b'] SPACE Alignment.LEFT 0 0,
          Sprite.mk ['x', '\n', 'y', 'z'] SPACE Alignment.LEFT 0 0] = some m ∧
      m.rows = some (rc ++ ra) ∧ m.dim = some (max 2 2, 1 + 2) :=
  mergeBottomSpec (Sprite.mk ['a', 'b'] SPACE Alignment.LEFT 0 0)
    (Sprite.mk ['x', '\n', 'y', 'z'] SPACE Alignment.LEFT 0 0) Alignment.CENTER
    2 1 2 2 (by decide) (by decide) (by decide) (by decide) (by decide)
    (by decide) (by decide) (by decide)

/-- C3 counterexample: with the default `LEFT` alignment (vertically a
*middle* alignment) the shorter operand is centred, not top-anchored: merging
`Sprite('a\nb')` (height 2) rightwards with `Sprite('c\nd\ne\nf')` (height 4)
yields rows `[' c', 'ad', 'be', ' f']`, so the shorter sprite's contribution to
row 2 is `'b'`, not its blank-row fallback `' '`. -/
theorem mergeRightFailsOnMiddleAlignment :
    ((Sprite.merge Alignment.RIGHT Alignment.LEFT
        [Sprite.mk ['a', '\n', 'b'] SPACE Alignment.LEFT 0 0,
          Sprite.mk ['c', '\n', 'd', '\n', 'e', '\n', 'f'] SPACE Alignment.LEFT 0 0]).bind
      Sprite.rows) = some [[' ', 'c'], ['a', 'd'], ['b', 'e'], [' ', 'f']] ∧
    (Sprite.mk ['a', '\n', 'b'] SPACE Alignment.LEFT 0 0).dim = some (1, 2) ∧
    (Sprite.mk ['c', '\n', 'd', '\n', 'e', '\n', 'f'] SPACE Alignment.LEFT 0 0).dim =
      some (1, 4) ∧
    (Sprite.mk ['a', '\n', 'b'] SPACE Alignment.LEFT 0 0).blank_row = some [' '] ∧
    [[' ', 'c'], ['a', 'd'], ['b', 'e'], [' ', 'f']].getD 2 [] ≠ [' '] ++ ['e'] := by
  refine ⟨by decide, by decide, by decide, by decide, by decide⟩

/-- C3 (corrected): for a top-aligned shorter operand (and single
non-newline-character paddings, non-empty texts, positive widths),
`merge(RIGHT, align, s1, s2)` with heights 2 and 4 re-renders both operands at
`min_height = 4` and concatenates row-by-row; the result has height 4, and the
shorter sprite's contribution to rows 2 and 3 is its blank row.  With a
vertically-middle operand alignment (such as the default `LEFT`) the deficit
is instead centred. -/
theorem mergeRightSpec (s1 s2 : Sprite) (al : Alignment) (w1 w2 : Nat)
    (hd1 : s1.dim = some (w1, 2)) (hd2 : s2.dim = some (w2, 4))
    (hp1 : s1.padding.length = 1) (hnp1 : '\n' ∉ s1.padding) (hw1 : 1 ≤ w1)
    (hp2 : s2.padding.length = 1) (hnp2 : '\n' ∉ s2.padding) (hw2 : 1 ≤ w2)
    (htop : s1.align.top = true) :
    ∃ m rs1 rs2 b,
      s1.rows = some rs1 ∧ s2.rows = some rs2 ∧ s1.blank_row = some b ∧
      Sprite.merge Alignment.RIGHT al [s1, s2] = some m ∧
      m.dim = some (w1 + w2, 4) ∧
      m.rows = some (List.zipWith (fun x y => x ++ y) (rs1 ++ [b, b]) rs2) := by
  obtain ⟨htb1, hrows1, hlen1, hmem1⟩ := render_spec hd1 hp1 hnp1 hw1
  obtain ⟨htb2, hrows2, hlen2, hmem2⟩ := render_spec hd2 hp2 hnp2 hw2
  obtain ⟨hmw1, hmh1, hll1, hle1, hne1⟩ := dim_bounds hd1
  obtain ⟨hmw2, hmh2, hll2, hle2, hne2⟩ := dim_bounds hd2
  have hL1ne : s1.renderRows w1 2 ≠ [] := by
    intro hnil; rw [hnil] at hlen1; simp at hlen1
  have hL2ne : s2.renderRows w2 4 ≠ [] := by
    intro hnil; rw [hnil] at hlen2; simp at hlen2
  have h24 : max 2 4 = 4 := rfl
  have hcur := rerender_vert (s1.renderRows w1 2) s1.padding s1.align s1.min_width 4 w1
    hw1 hL1ne (fun r hr => ⟨(hmem1 r hr).1, (hmem1 r hr).2.1⟩) hp1 hnp1 hmw1
    (by omega)
  have hadj := rerender_vert (s2.renderRows w2 4) s2.padding s2.align s2.min_width 4 w2
    hw2 hL2ne (fun r hr => ⟨(hmem2 r hr).1, (hmem2 r hr).2.1⟩) hp2 hnp2 hmw2
    (by omega)
  set b := pyRepeat s1.padding w1 with hbdef
  have hmargtop : Sprite.margins (s1.renderRows w1 2).length 4 s1.align true = (0, 2) := by
    rw [hlen1, Sprite.margins, if_neg (by omega)]
    simp [htop]
  have hcurrows : (Sprite.mk (pyJoin (s1.renderRows w1 2)) s1.padding s1.align
      s1.min_width 4).rows = some (s1.renderRows w1 2 ++ [b, b]) := by
    rw [hcur.2, hmargtop]
    simp [List.replicate]
  have hmargadj : Sprite.margins (s2.renderRows w2 4).length 4 s2.align true = (0, 0) := by
    rw [hlen2]
    exact margins_of_le 4 4 s2.align true (le_refl 4)
  have hadjrows : (Sprite.mk (pyJoin (s2.renderRows w2 4)) s2.padding s2.align
      s2.min_width 4).rows = some (s2.renderRows w2 4) := by
    rw [hadj.2, hmargadj]
    simp
  have hbu : ∀ r ∈ s1.renderRows w1 2 ++ [b, b], r.length = w1 ∧ '\n' ∉ r := by
    intro r hr
    rcases List.mem_append.mp hr with hr | hr
    · exact ⟨(hmem1 r hr).1, (hmem1 r hr).2.1⟩
    · have : r = b := by
        rcases List.mem_cons.mp hr with h | h
        · exact h
        · simpa using h
      subst this
      refine ⟨by simp [hbdef, pyRepeat_length, hp1], fun hmem => hnp1 (mem_pyRepeat hmem)⟩
  have hmr := mergeRows_range
    (Sprite.mk (pyJoin (s1.renderRows w1 2)) s1.padding s1.align s1.min_width 4)
    (Sprite.mk (pyJoin (s2.renderRows w2 4)) s2.padding s2.align s2.min_width 4)
    (s1.renderRows w1 2 ++ [b, b]) (s2.renderRows w2 4) 4 hcurrows hadjrows
    (by simp [hlen1]) hlen2
  set merged := List.zipWith (fun x y => x ++ y) (s1.renderRows w1 2 ++ [b, b])
    (s2.renderRows w2 4) with hmerged
  have hmu : ∀ r ∈ merged, r.length = w1 + w2 ∧ '\n' ∉ r :=
    zipWith_append_uniform w1 w2 (s1.renderRows w1 2 ++ [b, b]) (s2.renderRows w2 4)
      hbu (fun r hr => ⟨(hmem2 r hr).1, (hmem2 r hr).2.1⟩)
  have hmlen : merged.length = 4 := by
    rw [hmerged, List.length_zipWith]
    simp [hlen1, hlen2]
  have hmne : merged ≠ [] := by
    intro hnil; rw [hnil] at hmlen; simp at hmlen
  have hm := rows_uniform merged SPACE al 0 0 (w1 + w2) (by omega) hmne hmu
    (by omega) (by omega)
  have hmerge : Sprite.merge Alignment.RIGHT al [s1, s2] =
      some (Sprite.mk (pyJoin merged) SPACE al 0 0) := by
    simp only [Sprite.merge, hd1, hd2, htb1, htb2, h24]
    rw [if_pos trivial, hmr]
  refine ⟨Sprite.mk (pyJoin merged) SPACE al 0 0, s1.renderRows w1 2, s2.renderRows w2 4,
    b, hrows1, hrows2, ?_, hmerge, ?_, hm.2⟩
  · simp [Sprite.blank_row, hd1, hbdef]
  · rw [hm.1, hmlen]

/-- C3 witness: the corrected RIGHT-merge statement evaluated on the
top-aligned `Sprite('a\nb')` and `Sprite('c\nd\ne\nf')`. -/
theorem mergeRightSpecWitness :
    ∃ m rs1 rs2 b,
      (Sprite.mk ['a', '\n', 'b'] SPACE Alignment.TOPLEFT 0 0).rows = some rs1 ∧
      (Sprite.mk ['c', '\n', 'd', '\n', 'e', '\n', 'f'] SPACE Alignment.LEFT 0 0).rows =
        some rs2 ∧
      (Sprite.mk ['a', '\n', 'b'] SPACE Alignment.TOPLEFT 0 0).blank_row = some b ∧
      Sprite.merge Alignment.RIGHT Alignment.LEFT
        [Sprite.mk ['a', '\n', 'b'] SPACE Alignment.TOPLEFT 0 0,
          Sprite.mk ['c', '\n', 'd', '\n', 'e', '\n', 'f'] SPACE Alignment.LEFT 0 0] =
        some m ∧
      m.dim = some (1 + 1, 4) ∧
      m.rows = some (List.zipWith (fun x y => x ++ y) (rs1 ++ [b, b]) rs2) :=
  mergeRightSpec (Sprite.mk ['a', '\n', 'b'] SPACE Alignment.TOPLEFT 0 0)
    (Sprite.mk ['c', '\n', 'd', '\n', 'e', '\n', 'f'] SPACE Alignment.LEFT 0 0)
    Alignment.LEFT 1 1 (by decide) (by decide) (by decide) (by decide) (by decide)
    (by decide) (by decide) (by decide) (by decide)

/-- C8 counterexample: with the *default* `BLANK` wrap padding,
`wrap(s, (TOP, 2), (LEFT, 1))` does not increase the width: wrapping the 2×1
sprite `Sprite('ab')` yields dimensions (2, 3), not (3, 3) — the left margin
is the empty string repeated, and no wrap-padding character exists to head
each row. -/
theorem wrapMarginFailsOnBlankPadding :
    (Sprite.mk ['a', 'b'] SPACE Alignment.LEFT 0 0).dim = some (2, 1) ∧
    ((Sprite.wrap (Sprite.mk ['a', 'b'] SPACE Alignment.LEFT 0 0)
        [(Alignment.TOP, 2), (Alignment.LEFT, 1)] BLANK).bind Sprite.dim) = some (2, 3) ∧
    some ((2 : Nat), (3 : Nat)) ≠ some (2 + 1, 1 + 2) := by
  refine ⟨by decide, by decide, by decide⟩

/-- C8 (corrected): when a non-empty single non-newline wrap-padding character
`c` is supplied (and the inner sprite has a single non-newline-character
padding, non-empty text and positive width), `wrap(s, (TOP, 2), (LEFT, 1),
padding=c)` first re-renders the inner sprite with padding `c` and then
produces a sprite with exactly 2 blank rows prepended, every row starting with
`c`, width `w + 1` and height `h + 2`. -/
theorem wrapMarginSpec (s : Sprite) (c : Char) (w h : Nat)
    (hd : s.dim = some (w, h)) (hp : s.padding.length = 1) (hnp : '\n' ∉ s.padding)
    (hw : 1 ≤ w) (hc : c ≠ '\n') :
    ∃ tb m rs,
      s.textbox = some tb ∧
      Sprite.wrap s [(Alignment.TOP, 2), (Alignment.LEFT, 1)] [c] = some m ∧
      (Sprite.mk tb [c] s.align s.min_width s.min_height).rows = some rs ∧
      rs.length = h ∧
      m.dim = some (w + 1, h + 2) ∧
      m.rows = some (List.replicate (w + 1) c :: List.replicate (w + 1) c ::
        rs.map (fun r => c :: r)) := by
  obtain ⟨htb, hrows, hlen, hmem⟩ := render_spec hd hp hnp hw
  obtain ⟨hmw, hmh, hll, hle, hne⟩ := dim_bounds hd
  set L := s.renderRows w h with hLdef
  have hLne : L ≠ [] := by
    intro hnil
    have h0 : L.length = 0 := by rw [hnil]; rfl
    have h1 : 1 ≤ (splitlines s.ascii).length := List.length_pos.mpr hne
    omega
  have hLu : ∀ r ∈ L, r.length = w ∧ '\n' ∉ r := fun r hr =>
    ⟨(hmem r hr).1, (hmem r hr).2.1⟩
  have hinner := rows_uniform L [c] s.align s.min_width s.min_height w hw hLne hLu
    hmw (by omega)
  have hbr : (Sprite.mk (pyJoin L) [c] s.align s.min_width s.min_height).blank_row =
      some (pyRepeat [c] w) := by
    simp [Sprite.blank_row, hinner.1]
  set W := pyRepeat [c] w :: pyRepeat [c] w :: L.map (fun line => c :: line) with hWdef
  have hwrap : Sprite.wrap s [(Alignment.TOP, 2), (Alignment.LEFT, 1)] [c] =
      some (Sprite.mk (pyJoin W) [c] Alignment.LEFT 0 0) := by
    have hT : (([(Alignment.TOP, 2), (Alignment.LEFT, 1)] : List (Alignment × Nat)).foldl
        (fun acc p => if p.1 = Alignment.TOP then p.2 else acc) 0) = 2 := by decide
    have hB : (([(Alignment.TOP, 2), (Alignment.LEFT, 1)] : List (Alignment × Nat)).foldl
        (fun acc p => if p.1 = Alignment.BOTTOM then p.2 else acc) 0) = 0 := by decide
    have hLft : (([(Alignment.TOP, 2), (Alignment.LEFT, 1)] : List (Alignment × Nat)).foldl
        (fun acc p => if p.1 = Alignment.LEFT then p.2 else acc) 0) = 1 := by decide
    have hR : (([(Alignment.TOP, 2), (Alignment.LEFT, 1)] : List (Alignment × Nat)).foldl
        (fun acc p => if p.1 = Alignment.RIGHT then p.2 else acc) 0) = 0 := by decide
    simp only [Sprite.wrap, hT, hB, hLft, hR]
    rw [if_neg (by simp [BLANK])]
    rw [htb]
    simp only [hbr, hinner.2]
    rw [hWdef]
    simp [pyRepeat]
  have hWu : ∀ r ∈ W, '\n' ∉ r ∧ r ≠ [] := by
    intro r hr
    rw [hWdef] at hr
    rcases List.mem_cons.mp hr with rfl | hr
    · refine ⟨fun hmemc => hc (List.eq_of_mem_replicate (by
        rwa [pyRepeat_single] at hmemc)).symm, ?_⟩
      intro hnil
      have := pyRepeat_length [c] w
      rw [hnil] at this
      simp at this
      omega
    · rcases List.mem_cons.mp hr with rfl | hr
      · refine ⟨fun hmemc => hc (List.eq_of_mem_replicate (by
          rwa [pyRepeat_single] at hmemc)).symm, ?_⟩
        intro hnil
        have := pyRepeat_length [c] w
        rw [hnil] at this
        simp at this
        omega
      · rcases List.mem_map.mp hr with ⟨line, hline, rfl⟩
        refine ⟨?_, by simp⟩
        intro hmemc
        rcases List.mem_cons.mp hmemc with h0 | h0
        · exact hc h0.symm
        · exact (hLu line hline).2 h0
  have hsplitW : splitlines (pyJoin W) = W :=
    splitlines_pyJoin W (fun l hl => (hWu l hl))
  have hWlen : W.length = 2 + L.length := by
    rw [hWdef]
    simp
    omega
  have hmaxW : pyMaxNat (W.map List.length) = some (w + 1) := by
    rw [pyMaxNat_foldr _ (by rw [hWdef]; simp)]
    have hmapped : ∀ x ∈ (L.map (fun line => c :: line)).map List.length, x = w + 1 := by
      intro x hx
      rcases List.mem_map.mp hx with ⟨r, hr, rfl⟩
      rcases List.mem_map.mp hr with ⟨line, hline, rfl⟩
      simp [(hLu line hline).1]
    have hTne : (L.map (fun line => c :: line)).map List.length ≠ [] := by
      simp [hLne]
    have hfold := foldr_max_const (w + 1) _ hmapped hTne
    rw [hWdef]
    simp only [List.map_cons, List.foldr_cons, hfold, pyRepeat_length]
    simp
  have hdimM : (Sprite.mk (pyJoin W) [c] Alignment.LEFT 0 0).dim =
      some (w + 1, 2 + L.length) := by
    simp only [Sprite.dim, hsplitW, hmaxW, hWlen]
    simp
  have hmargLow : Sprite.margins w (w + 1) Alignment.LEFT false = (0, 1) := by
    rw [Sprite.margins, if_neg (by omega)]
    simp [Alignment.left, Alignment.right]
  have hrender : (Sprite.mk (pyJoin W) [c] Alignment.LEFT 0 0).renderRows (w + 1)
      (2 + L.length) = List.replicate (w + 1) c :: List.replicate (w + 1) c ::
        L.map (fun line => c :: line) := by
    simp only [Sprite.renderRows, hsplitW]
    have hgbr : pyRepeat [c] (Sprite.margins (pyRepeat [c] w).length (w + 1)
          Alignment.LEFT false).1 ++ pyRepeat [c] w ++
        pyRepeat [c] (Sprite.margins (pyRepeat [c] w).length (w + 1)
          Alignment.LEFT false).2 = List.replicate (w + 1) c := by
      have hlenbr : (pyRepeat [c] w).length = w := by
        simp [pyRepeat_length]
      rw [hlenbr, hmargLow]
      simp [pyRepeat, pyRepeat_single, List.replicate_succ']
    have hgmap : (L.map (fun line => c :: line)).map (fun line =>
        pyRepeat [c] (Sprite.margins line.length (w + 1) Alignment.LEFT false).1 ++ line ++
          pyRepeat [c] (Sprite.margins line.length (w + 1) Alignment.LEFT false).2) =
        L.map (fun line => c :: line) := by
      have := List.map_congr_left (l := L.map (fun line => c :: line))
        (f := fun line =>
          pyRepeat [c] (Sprite.margins line.length (w + 1) Alignment.LEFT false).1 ++ line ++
            pyRepeat [c] (Sprite.margins line.length (w + 1) Alignment.LEFT false).2)
        (g := fun line => line)
        (by
          intro l hl
          rcases List.mem_map.mp hl with ⟨line, hline, rfl⟩
          simp only [List.length_cons, (hLu line hline).1,
            margins_of_le (w + 1) (w + 1) Alignment.LEFT false (le_refl (w + 1)), pyRepeat]
          simp)
      rw [this, List.map_id']
    conv =>
      lhs
      rw [hWdef]
    simp only [List.map_cons, hgbr, hgmap]
    rw [if_pos (by simp; omega)]
  have hspecM := render_spec (s := Sprite.mk (pyJoin W) [c] Alignment.LEFT 0 0)
    hdimM (by simp) (by simpa using (Ne.symm hc)) (by omega)
  refine ⟨pyJoin L, Sprite.mk (pyJoin W) [c] Alignment.LEFT 0 0, L, htb, hwrap,
    hinner.2, by omega, ?_, ?_⟩
  · rw [hdimM]
    have : 2 + L.length = h + 2 := by omega
    rw [this]
  · rw [hspecM.2.1, hrender]

/-- C8 witness: the corrected wrap statement evaluated on `Sprite('hi')`
with wrap padding `'.'`. -/
theorem wrapMarginSpecWitness :
    ∃ tb m rs,
      (Sprite.mk ['h', 'i'] SPACE Alignment.LEFT 0 0).textbox = some tb ∧
      Sprite.wrap (Sprite.mk ['h', 'i'] SPACE Alignment.LEFT 0 0)
        [(Alignment.TOP, 2), (Alignment.LEFT, 1)] ['.'] = some m ∧
      (Sprite.mk tb ['.'] Alignment.LEFT 0 0).rows = some rs ∧
      rs.length = 1 ∧
      m.dim = some (2 + 1, 1 + 2) ∧
      m.rows = some (List.replicate (2 + 1) '.' :: List.replicate (2 + 1) '.' ::
        rs.map (fun r => '.' :: r)) :=
  wrapMarginSpec (Sprite.mk ['h', 'i'] SPACE Alignment.LEFT 0 0) '.' 2 1
    (by decide) (by decide) (by decide) (by decide) (by decide)

/-! Section: Border (`borders/border.py`).

The Python module as committed cannot be imported at all: it does
`from ..sprites import Sprite, merge` although `sprites.py` has no
module-level `merge` (only the static method `Sprite.merge`), and the body of
`Border.__init__` refers to the name `Align`, which is never defined there
(only `Alignment` is imported).  The validation logic below embeds the
`__init__` body with `Align` read as the imported `Alignment`; `Except.error`
carries the `AsciiError` message (or a `ValueError` marker when `dim`
raises). -/

/-- Embeds `border.err(msg)`. -/
def borderErr (msg : String) : String := "ASCII border misconfigured: " ++ msg

/-- The fields assigned by `Border.__init__`. -/
structure Border : Type where
  top_left : Sprite
  top_right : Sprite
  bottom_left : Sprite
  bottom_right : Sprite
  top : Sprite
  bottom : Sprite
  left : Sprite
  right : Sprite
deriving DecidableEq

/-- The validation logic of `Border.__init__(sprites)`: requires the four
corners (`KeyError` is turned into the configuration error), at least one of
top/bottom and of left/right (a missing one reuses the other), and matching
widths (resp. heights) for the horizontal (resp. vertical) edge tiles. -/
def Border.init (sprites : Alignment → Option Sprite) : Except String Border :=
  match sprites Alignment.TOPLEFT, sprites Alignment.TOPRIGHT,
      sprites Alignment.BOTTOMLEFT, sprites Alignment.BOTTOMRIGHT with
  | some top_left, some top_right, some bottom_left, some bottom_right =>
    match sprites Alignment.TOP, sprites Alignment.BOTTOM with
    | none, none => Except.error (borderErr ("missing top and bottom sprites"))
    | topOpt, botOpt =>
      match topOpt <|> botOpt, botOpt <|> topOpt with
      | some top, some bottom =>
        match top.dim, bottom.dim with
        | some tD, some bD =>
          if tD.1 ≠ bD.1 then
            Except.error ("top and bottom sprites must match widths, " ++
              toString tD.1 ++ " != " ++ toString bD.1)
          else
            match sprites Alignment.LEFT, sprites Alignment.RIGHT with
            | none, none => Except.error (borderErr ("missing left and right sprites"))
            | leftOpt, rightOpt =>
              match leftOpt <|> rightOpt, rightOpt <|> leftOpt with
              | some lft, some rgt =>
                match lft.dim, rgt.dim with
                | some lD, some rD =>
                  if lD.2 ≠ rD.2 then
                    Except.error (borderErr ("left and right sprites must match heigths, " ++
                      toString lD.2 ++ " != " ++ toString rD.2))
                  else
                    Except.ok (Border.mk top_left top_right bottom_left bottom_right
                      top bottom lft rgt)
                | _, _ => Except.error ("ValueError: max() arg is an empty sequence")
              | _, _ => Except.error (borderErr ("missing left and right sprites"))
        | _, _ => Except.error ("ValueError: max() arg is an empty sequence")
      | _, _ => Except.error (borderErr ("missing top and bottom sprites"))
  | _, _, _, _ => Except.error (borderErr ("all four corners are required"))

/-- A 1×1 corner tile for the Border examples. -/
def borderCorner : Sprite := Sprite.mk ['+'] SPACE Alignment.LEFT 0 0

/-- A 1×1 horizontal edge tile. -/
def borderHTile : Sprite := Sprite.mk ['-'] SPACE Alignment.LEFT 0 0

/-- A 2×1 horizontal edge tile (mismatching `borderHTile`). -/
def borderHTileWide : Sprite := Sprite.mk ['-', '-'] SPACE Alignment.LEFT 0 0

/-- A 1×1 vertical edge tile. -/
def borderVTile : Sprite := Sprite.mk ['|'] SPACE Alignment.LEFT 0 0

/-- A Border configuration missing the BOTTOMRIGHT corner. -/
def borderMissingCorner : Alignment → Option Sprite := fun a =>
  match a with
  | Alignment.TOPLEFT => some borderCorner
  | Alignment.TOPRIGHT => some borderCorner
  | Alignment.BOTTOMLEFT => some borderCorner
  | Alignment.TOP => some borderHTile
  | Alignment.BOTTOM => some borderHTile
  | Alignment.LEFT => some borderVTile
  | Alignment.RIGHT => some borderVTile
  | _ => none

/-- A Border configuration whose top and bottom tiles have unequal widths. -/
def borderMismatched : Alignment → Option Sprite := fun a =>
  match a with
  | Alignment.TOPLEFT => some borderCorner
  | Alignment.TOPRIGHT => some borderCorner
  | Alignment.BOTTOMLEFT => some borderCorner
  | Alignment.BOTTOMRIGHT => some borderCorner
  | Alignment.TOP => some borderHTile
  | Alignment.BOTTOM => some borderHTileWide
  | Alignment.LEFT => some borderVTile
  | Alignment.RIGHT => some borderVTile
  | _ => none

/-- A valid minimal Border configuration. -/
def borderValid : Alignment → Option Sprite := fun a =>
  match a with
  | Alignment.TOPLEFT => some borderCorner
  | Alignment.TOPRIGHT => some borderCorner
  | Alignment.BOTTOMLEFT => some borderCorner
  | Alignment.BOTTOMRIGHT => some borderCorner
  | Alignment.TOP => some borderHTile
  | Alignment.BOTTOM => some borderHTile
  | Alignment.LEFT => some borderVTile
  | Alignment.RIGHT => some borderVTile
  | _ => none

/-- C9 (code_bug): the *intended* validation logic of `Border.__init__` (with
the undefined name `Align` read as the imported `Alignment`) does raise the
configuration error for a missing BOTTOMRIGHT corner and for mismatched
top/bottom tile widths, and accepts a valid minimal configuration — but the
module as committed raises `ImportError`/`NameError` at import time, before
any `AsciiError` can ever be raised. -/
theorem borderValidationSpec :
    Border.init borderMissingCorner =
      Except.error ("ASCII border misconfigured: all four corners are required") ∧
    Border.init borderMismatched =
      Except.error ("top and bottom sprites must match widths, 1 != 2") ∧
    Border.init borderValid = Except.ok (Border.mk borderCorner borderCorner borderCorner
      borderCorner borderHTile borderHTile borderVTile borderVTile) := by
  refine ⟨rfl, rfl, rfl⟩

end Zardy
